import Mathlib

/-!
Verification of the `off-db-utility` ETL scripts
(`import_openfoodfacts.py` and `import_supabase_data.py`).

The two scripts are shallowly embedded below: the destination SQLite
tables are Lean lists of rows, the batch-transfer loops are recursive
functions that additionally record a trace of `read` / `write` / `commit`
events in the order the corresponding calls happen in the Python code.
-/

/-- Record normalization from `import_csv_data` (import_openfoodfacts.py,
lines 63-68): a raw CSV row with fewer fields than the target column count
is padded on the right with empty strings; a row with more fields is
truncated to the first `ncols` fields; otherwise it is left unchanged. -/
def normalizeRow (ncols : Nat) (row : List String) : List String :=
  if row.length < ncols then row ++ List.replicate (ncols - row.length) ""
  else if ncols < row.length then row.take ncols
  else row

/-- Observable events of a batch-transfer loop: reading a batch from the
source, writing a batch of `n` records to the destination (`executemany`),
and committing the destination connection (`conn.commit()`). -/
inductive Ev
  | read
  | write (n : Nat)
  | commit

/-- Result of the CSV import loop: the event trace, the contents of the
destination `openfoodfacts` table, and the `total_imported` counter. -/
structure CsvResult where
  trace : List Ev
  table : List (List String)
  total : Nat

/-- The body of `import_csv_data` (import_openfoodfacts.py, lines 63-86):
rows are read one by one, normalized and accumulated into `batch`; when the
batch reaches `bs` records it is written with `executemany`, the running
total is updated, and the connection is committed only when the running
total is a multiple of 1,000,000 (the progress checkpoint at line 77-79);
after the loop a remaining partial batch is written and a final commit is
issued (line 86).  The source hardcodes `bs = 10000`; the spec treats the
batch size as a configuration knob, so it is a parameter here. -/
def csv_import_go (cols : List String) (bs : Nat) (rows : List (List String))
    (batch : List (List String)) (table : List (List String)) (total : Nat) :
    CsvResult :=
  match rows with
  | [] =>
    if 0 < batch.length then
      { trace := [Ev.write batch.length, Ev.commit],
        table := table ++ batch, total := total + batch.length }
    else
      { trace := [Ev.commit], table := table, total := total }
  | r :: rest =>
    let batch2 := batch ++ [normalizeRow cols.length r]
    if bs ≤ batch2.length then
      let res := csv_import_go cols bs rest [] (table ++ batch2) (total + batch2.length)
      { trace := Ev.read :: Ev.write batch2.length ::
          ((if (total + batch2.length) % 1000000 = 0 then [Ev.commit] else []) ++ res.trace),
        table := res.table, total := res.total }
    else
      let res := csv_import_go cols bs rest batch2 table total
      { trace := Ev.read :: res.trace, table := res.table, total := res.total }

/-- `import_csv_data` from import_openfoodfacts.py, started on an empty
batch accumulator and an initial table state `[]` (the table was just
(re)created by `create_openfoodfacts_table`), with `total_imported = 0`. -/
def csv_import_data (cols : List String) (bs : Nat)
    (rows : List (List String)) : CsvResult :=
  csv_import_go cols bs rows [] [] 0

/-- Sum of the sizes of all `write` events of a trace (the value
accumulated into `total_imported` / `exported` by the loops). -/
def sumWrites : List Ev → Nat
  | [] => 0
  | Ev.write n :: t => n + sumWrites t
  | _ :: t => sumWrites t

/-- The sizes of the `write` events of a trace, in order. -/
def writesOf : List Ev → List Nat
  | [] => []
  | Ev.write n :: t => n :: writesOf t
  | _ :: t => writesOf t

/-- Scans a trace keeping a flag that is set by a `write` and cleared by a
`commit`; returns `true` exactly when some `read` happens while the flag is
set, i.e. while a previously written batch is still uncommitted. -/
def readsPending (pending : Bool) : List Ev → Bool
  | [] => false
  | Ev.read :: t => pending || readsPending pending t
  | Ev.write _ :: t => readsPending true t
  | Ev.commit :: t => readsPending false t

/-- `true` iff the trace contains a `read` that happens after a `write`
with no `commit` in between. -/
def readsWhileUncommitted (t : List Ev) : Bool :=
  readsPending false t

/-- Value of the written-but-uncommitted flag at the end of the trace:
`true` iff some write is still uncommitted when the run finishes. -/
def pendingAtEnd (pending : Bool) : List Ev → Bool
  | [] => pending
  | Ev.read :: t => pendingAtEnd pending t
  | Ev.write _ :: t => pendingAtEnd true t
  | Ev.commit :: t => pendingAtEnd false t

/-- Expected batch sizes produced by the CSV loop from a pending batch of
`cur` records followed by `n` further source records, with full batches of
`bs` records and a trailing partial batch. -/
def chunkSizes (bs : Nat) : Nat → Nat → List Nat
  | cur, 0 => if 0 < cur then [cur] else []
  | cur, n + 1 =>
    if bs ≤ cur + 1 then (cur + 1) :: chunkSizes bs 0 n
    else chunkSizes bs (cur + 1) n

/-- Expected page sizes of a paginated fetch over `n` remaining records
with page size `bs`. -/
def pageSizes (bs n : Nat) : List Nat :=
  if h : 0 < n ∧ 0 < bs then min bs n :: pageSizes bs (n - bs) else []
termination_by n
decreasing_by omega

/-- A row of the `products` table of import_supabase_data.py
(lines 32-47): twelve text columns, `ean13` declared PRIMARY KEY. -/
structure Product where
  product_name : String
  brand : String
  upc : String
  ean13 : String
  ingredients : String
  lastupdated : String
  analysis : String
  created : String
  mfg : String
  imageurl : String
  classification : String
  issues : String

/-- A row of the `ingredients` table of import_supabase_data.py
(lines 50-59): `title` declared UNIQUE, `productcount` an integer. -/
structure Ingredient where
  title : String
  «class» : String
  productcount : Int
  lastupdated : String
  created : String
  primary_class : String

/-- SQLite `INSERT OR REPLACE` into `products`, whose declared primary key
is `ean13`: any existing row with the same `ean13` is deleted and the new
row is inserted. -/
def productInsertOrReplace (t : List Product) (r : Product) : List Product :=
  t.filter (fun x => x.ean13 != r.ean13) ++ [r]

/-- SQLite `INSERT OR REPLACE` into `ingredients`, whose unique column is
`title`: any existing row with the same `title` is deleted and the new row
is inserted. -/
def ingredientInsertOrReplace (t : List Ingredient) (r : Ingredient) : List Ingredient :=
  t.filter (fun x => x.title != r.title) ++ [r]

/-- Result of a paginated export loop: the event trace, the list of pages
fetched from the remote server, the destination table contents, and the
`exported` counter. -/
structure PgResult (α : Type) where
  trace : List Ev
  pages : List (List α)
  table : List α
  exported : Nat

/-- The shared shape of `export_products` and `export_ingredients`
(import_supabase_data.py, lines 87-113 and 135-159): while `offset < total`,
fetch the page `LIMIT bs OFFSET offset` of the source ordered by its stable
sort key (modelled as `(src.drop offset).take bs` of the ordered snapshot
`src`), break if the page is empty, otherwise write the page into the
destination with `executemany` (`writeBatch`), advance `exported` and
`offset`, and commit before the next fetch.  The two scripts duplicate this
loop verbatim up to the row type, the batch write and the constants; it is
factored here with the batch write as a parameter. -/
def pagedExportGo {α : Type} (writeBatch : List α → List α → List α)
    (bs total : Nat) (src : List α) (table : List α)
    (offset exported : Nat) : PgResult α :=
  if h : offset < total then
    if hr : ((src.drop offset).take bs).isEmpty then
      { trace := [Ev.read], pages := [], table := table, exported := exported }
    else
      let rows := (src.drop offset).take bs
      let res := pagedExportGo writeBatch bs total src (writeBatch table rows)
          (offset + bs) (exported + rows.length)
      { trace := Ev.read :: Ev.write rows.length :: Ev.commit :: res.trace,
        pages := rows :: res.pages, table := res.table, exported := res.exported }
  else
    { trace := [], pages := [], table := table, exported := exported }
termination_by total - offset
decreasing_by
  have hbs : bs ≠ 0 := by
    intro h0
    rw [h0] at hr
    simp at hr
  omega

/-- `export_products` from import_supabase_data.py (lines 70-116): the
paginated loop over the `products` source (`ORDER BY ean13`), writing each
page with `INSERT OR REPLACE` into the destination table state `table`
(freshly created, hence `[]`, in a real run).  `total` is the count
fetched at line 78-79, which for a static source is `src.length`; the
source hardcodes `bs = 10000`. -/
def export_products (bs : Nat) (src : List Product) (table : List Product) :
    PgResult Product :=
  pagedExportGo (fun t rows => List.foldl productInsertOrReplace t rows)
    bs src.length src table 0 0

/-- `export_ingredients` from import_supabase_data.py (lines 118-162): the
paginated loop over the `ingredients` source (`ORDER BY title`); the source
hardcodes `bs = 20000`. -/
def export_ingredients (bs : Nat) (src : List Ingredient) (table : List Ingredient) :
    PgResult Ingredient :=
  pagedExportGo (fun t rows => List.foldl ingredientInsertOrReplace t rows)
    bs src.length src table 0 0

/-- `create_openfoodfacts_table` (import_openfoodfacts.py, lines 17-35):
`DROP TABLE IF EXISTS` followed by `CREATE TABLE` — whatever the prior
state of the destination table (`none` when absent), the result is an
empty table. -/
def create_openfoodfacts_table (_prev : Option (List (List String))) :
    List (List String) := []

/-- One full run of the text-import pipeline against a destination whose
`openfoodfacts` table is in state `prev`: recreate the table, then import
all data rows (import_openfoodfacts.py, `main`, lines 110-123). -/
def run_off_import (prev : Option (List (List String))) (cols : List String)
    (rows : List (List String)) (bs : Nat) : List (List String) :=
  (csv_import_go cols bs rows [] (create_openfoodfacts_table prev) 0).table

/-- `main` of import_openfoodfacts.py (lines 90-155): if the CSV file or
the database file is missing, an error is printed and `main` returns, so
the process exits with code 0; the successful path also exits 0.  The
result is the exit code paired with the destination table state. -/
def off_main (csvExists dbExists : Bool) (prev : Option (List (List String)))
    (cols : List String) (rows : List (List String)) (bs : Nat) :
    Nat × Option (List (List String)) :=
  if !csvExists then (0, prev)
  else if !dbExists then (0, prev)
  else (0, some (run_off_import prev cols rows bs))

/-- Destination state of the remote-copy pipeline: the `products` and
`ingredients` tables of `off-database.db` (`none` when a table does
not exist). -/
structure OffDatabase where
  products : Option (List Product)
  ingredients : Option (List Ingredient)

/-- `create_sqlite_db` (import_supabase_data.py, lines 16-68): drops both
tables if present and recreates them empty. -/
def create_sqlite_db (_prev : OffDatabase) : OffDatabase :=
  { products := some [], ingredients := some [] }

/-- One full run of the remote-copy pipeline from destination state
`prev`: recreate the schema, then export products and ingredients
(import_supabase_data.py, `main`, lines 185-192). -/
def run_supabase_export (prev : OffDatabase) (bs1 bs2 : Nat)
    (prodSrc : List Product) (ingSrc : List Ingredient) : OffDatabase :=
  { products := some ((export_products bs1 prodSrc
      (((create_sqlite_db prev).products).getD [])).table),
    ingredients := some ((export_ingredients bs2 ingSrc
      (((create_sqlite_db prev).ingredients).getD [])).table) }

/-- `main` of import_supabase_data.py (lines 164-220): `psycopg2.connect`
runs before `create_sqlite_db`; if the connection fails, the
`psycopg2.Error` handler calls `sys.exit(1)` and the destination store is
never touched.  The result is the exit code paired with the destination
state. -/
def supabase_main (connectOk : Bool) (prev : OffDatabase) (bs1 bs2 : Nat)
    (prodSrc : List Product) (ingSrc : List Ingredient) : Nat × OffDatabase :=
  if connectOk then
    (0, run_supabase_export prev bs1 bs2 prodSrc ingSrc)
  else
    (1, prev)

/-- A concrete product row, used in witness statements. -/
def sampleProduct : Product :=
  { product_name := "p", brand := "b", upc := "u", ean13 := "0000000000017",
    ingredients := "i", lastupdated := "l", analysis := "a", created := "c",
    mfg := "m", imageurl := "img", classification := "cl", issues := "" }

/-- A concrete ingredient row, used in witness statements. -/
def sampleIngredient : Ingredient :=
  { title := "salt", «class» := "mineral", productcount := 3,
    lastupdated := "l", created := "c", primary_class := "mineral" }

/-- A normalized record always has exactly the target number of fields. -/
theorem normalizeRow_length (ncols : Nat) (row : List String) :
    (normalizeRow ncols row).length = ncols := by
  unfold normalizeRow
  split
  · simp
    omega
  · split
    · simp
      omega
    · omega

@[simp]
theorem sumWrites_nil : sumWrites [] = 0 := rfl

@[simp]
theorem sumWrites_read (t : List Ev) : sumWrites (Ev.read :: t) = sumWrites t := rfl

@[simp]
theorem sumWrites_write (n : Nat) (t : List Ev) :
    sumWrites (Ev.write n :: t) = n + sumWrites t := rfl

@[simp]
theorem sumWrites_commit (t : List Ev) : sumWrites (Ev.commit :: t) = sumWrites t := rfl

@[simp]
theorem writesOf_nil : writesOf [] = [] := rfl

@[simp]
theorem writesOf_read (t : List Ev) : writesOf (Ev.read :: t) = writesOf t := rfl

@[simp]
theorem writesOf_write (n : Nat) (t : List Ev) :
    writesOf (Ev.write n :: t) = n :: writesOf t := rfl

@[simp]
theorem writesOf_commit (t : List Ev) : writesOf (Ev.commit :: t) = writesOf t := rfl

@[simp]
theorem readsPending_nil (p : Bool) : readsPending p [] = false := rfl

@[simp]
theorem readsPending_read (p : Bool) (t : List Ev) :
    readsPending p (Ev.read :: t) = (p || readsPending p t) := rfl

@[simp]
theorem readsPending_write (p : Bool) (n : Nat) (t : List Ev) :
    readsPending p (Ev.write n :: t) = readsPending true t := rfl

@[simp]
theorem readsPending_commit (p : Bool) (t : List Ev) :
    readsPending p (Ev.commit :: t) = readsPending false t := rfl

@[simp]
theorem pendingAtEnd_nil (p : Bool) : pendingAtEnd p [] = p := rfl

@[simp]
theorem pendingAtEnd_read (p : Bool) (t : List Ev) :
    pendingAtEnd p (Ev.read :: t) = pendingAtEnd p t := rfl

@[simp]
theorem pendingAtEnd_write (p : Bool) (n : Nat) (t : List Ev) :
    pendingAtEnd p (Ev.write n :: t) = pendingAtEnd true t := rfl

@[simp]
theorem pendingAtEnd_commit (p : Bool) (t : List Ev) :
    pendingAtEnd p (Ev.commit :: t) = pendingAtEnd false t := rfl

/-- `sumWrites` distributes over trace concatenation. -/
theorem sumWrites_append (l1 l2 : List Ev) :
    sumWrites (l1 ++ l2) = sumWrites l1 + sumWrites l2 := by
  induction l1 with
  | nil => simp [sumWrites]
  | cons e t ih =>
    cases e <;> simp [sumWrites, ih] <;> omega

/-- `writesOf` distributes over trace concatenation. -/
theorem writesOf_append (l1 l2 : List Ev) :
    writesOf (l1 ++ l2) = writesOf l1 ++ writesOf l2 := by
  induction l1 with
  | nil => simp [writesOf]
  | cons e t ih =>
    cases e <;> simp [writesOf, ih]

/-- Main bookkeeping invariant of the CSV import loop: the final table is
the starting table, then the pending batch, then all remaining rows
normalized; `total_imported` and the sum of the write events grow by
exactly the number of pending plus remaining records. -/
theorem csv_import_go_spec (cols : List String) (bs : Nat) :
    ∀ (rows batch table : List (List String)) (total : Nat),
      (csv_import_go cols bs rows batch table total).table
          = table ++ batch ++ rows.map (normalizeRow cols.length)
      ∧ (csv_import_go cols bs rows batch table total).total
          = total + batch.length + rows.length
      ∧ sumWrites (csv_import_go cols bs rows batch table total).trace
          = batch.length + rows.length := by
  intro rows
  induction rows with
  | nil =>
    intro batch table total
    by_cases h : 0 < batch.length
    · simp [csv_import_go, h]
    · have hb : batch = [] := by
        cases batch with
        | nil => rfl
        | cons x xs => simp at h
      subst hb
      simp [csv_import_go]
  | cons r rest ih =>
    intro batch table total
    by_cases h : bs ≤ (batch ++ [normalizeRow cols.length r]).length
    · have := ih [] (table ++ (batch ++ [normalizeRow cols.length r]))
        (total + (batch ++ [normalizeRow cols.length r]).length)
      simp only [csv_import_go, if_pos h]
      refine ⟨?_, ?_, ?_⟩
      · rw [this.1]
        simp
      · rw [this.2.1]
        simp
        omega
      · rw [sumWrites_read, sumWrites_write, sumWrites_append, this.2.2]
        have hc : sumWrites (if (total + (batch ++ [normalizeRow cols.length r]).length) % 1000000 = 0
            then [Ev.commit] else []) = 0 := by
          split <;> simp
        rw [hc]
        simp
        omega
    · have := ih (batch ++ [normalizeRow cols.length r]) table total
      simp only [csv_import_go, if_neg h]
      refine ⟨?_, ?_, ?_⟩
      · rw [this.1]
        simp
      · rw [this.2.1]
        simp
        omega
      · rw [sumWrites_read, this.2.2]
        simp
        omega

/-- The write events of the CSV loop are exactly the chunk sizes predicted
by `chunkSizes` from the pending-batch size and the number of remaining
rows, provided the pending batch is not already full. -/
theorem csv_import_go_writes (cols : List String) (bs : Nat) :
    ∀ (rows batch table : List (List String)) (total : Nat), batch.length < bs →
      writesOf (csv_import_go cols bs rows batch table total).trace
        = chunkSizes bs batch.length rows.length := by
  intro rows
  induction rows with
  | nil =>
    intro batch table total hlt
    by_cases h : 0 < batch.length
    · simp [csv_import_go, h, chunkSizes]
    · have hb : batch = [] := by
        cases batch with
        | nil => rfl
        | cons x xs => simp at h
      subst hb
      simp [csv_import_go, chunkSizes]
  | cons r rest ih =>
    intro batch table total hlt
    by_cases h : bs ≤ (batch ++ [normalizeRow cols.length r]).length
    · simp only [csv_import_go, if_pos h]
      rw [writesOf_read, writesOf_write, writesOf_append]
      have hz : writesOf (if (total + (batch ++ [normalizeRow cols.length r]).length) % 1000000 = 0
          then [Ev.commit] else []) = [] := by
        split <;> simp
      rw [hz]
      have hb1 : (batch ++ [normalizeRow cols.length r]).length = batch.length + 1 := by
        simp
      rw [ih [] _ _ (by simp only [List.length_nil]; omega), List.nil_append, hb1]
      show (batch.length + 1) :: chunkSizes bs 0 rest.length
          = chunkSizes bs batch.length (rest.length + 1)
      rw [chunkSizes]
      rw [if_pos (by omega)]
    · simp only [csv_import_go, if_neg h]
      rw [writesOf_read]
      have hb1 : (batch ++ [normalizeRow cols.length r]).length = batch.length + 1 := by
        simp
      rw [ih _ _ _ (by omega), hb1]
      show chunkSizes bs (batch.length + 1) rest.length
          = chunkSizes bs batch.length (rest.length + 1)
      rw [chunkSizes]
      rw [if_neg (by omega)]

/-- At the end of every CSV import run, no written batch remains
uncommitted: the trace produced by the loop always ends with the final
commit of line 86. -/
theorem csv_import_go_ends_committed (cols : List String) (bs : Nat) :
    ∀ (rows batch table : List (List String)) (total : Nat) (p : Bool),
      pendingAtEnd p (csv_import_go cols bs rows batch table total).trace = false := by
  intro rows
  induction rows with
  | nil =>
    intro batch table total p
    by_cases h : 0 < batch.length <;> simp [csv_import_go, h]
  | cons r rest ih =>
    intro batch table total p
    by_cases h : bs ≤ (batch ++ [normalizeRow cols.length r]).length
    · simp only [csv_import_go, if_pos h]
      rw [pendingAtEnd_read, pendingAtEnd_write]
      by_cases hc : (total + (batch ++ [normalizeRow cols.length r]).length) % 1000000 = 0
      · rw [if_pos hc, List.cons_append, pendingAtEnd_commit, List.nil_append, ih]
      · rw [if_neg hc, List.nil_append, ih]
    · simp only [csv_import_go, if_neg h]
      rw [pendingAtEnd_read, ih]

/-- Small-batch evaluation of `chunkSizes`: when the pending plus remaining
records do not fill a batch, a single trailing chunk of that size is
produced (or none when empty). -/
theorem chunkSizes_small (bs : Nat) :
    ∀ (m cur : Nat), cur + m < bs →
      chunkSizes bs cur m = if 0 < cur + m then [cur + m] else [] := by
  intro m
  induction m with
  | zero =>
    intro cur hlt
    simp [chunkSizes]
  | succ n ih =>
    intro cur hlt
    rw [chunkSizes, if_neg (by omega), ih (cur + 1) (by omega)]
    have h1 : cur + 1 + n = cur + (n + 1) := by omega
    rw [h1]

/-- Full-batch evaluation of `chunkSizes`: when exactly `k` more records
complete a batch, the next chunk has size `bs`. -/
theorem chunkSizes_full (bs : Nat) :
    ∀ (k m cur : Nat), cur + k = bs → 1 ≤ k →
      chunkSizes bs cur (k + m) = bs :: chunkSizes bs 0 m := by
  intro k
  induction k with
  | zero =>
    intro m cur heq hk
    omega
  | succ n ih =>
    intro m cur heq hk
    have h1 : n + 1 + m = (n + m) + 1 := by omega
    rw [h1, chunkSizes]
    rcases Nat.eq_zero_or_pos n with hn | hn
    · subst hn
      rw [if_pos (by omega)]
      have h2 : cur + 1 = bs := by omega
      rw [h2]
      simp
    · rw [if_neg (by omega)]
      exact ih m (cur + 1) (by omega) hn

/-- `chunkSizes` on a source of `3 * b + 7` records with `7 < b`: three
full chunks and one trailing chunk of 7. -/
theorem chunkSizes_three_and_seven (b : Nat) (hb : 7 < b) :
    chunkSizes b 0 (3 * b + 7) = [b, b, b, 7] := by
  have h1 : 3 * b + 7 = b + (2 * b + 7) := by omega
  rw [h1, chunkSizes_full b b (2 * b + 7) 0 (by omega) (by omega)]
  have h2 : 2 * b + 7 = b + (b + 7) := by omega
  rw [h2, chunkSizes_full b b (b + 7) 0 (by omega) (by omega)]
  rw [chunkSizes_full b b 7 0 (by omega) (by omega)]
  rw [chunkSizes_small b 7 0 (by omega)]
  simp

/-- Fuel-indexed form of the pagination coverage lemma: from offset
`offset`, the concatenation of all fetched pages is exactly the suffix of
the (static, stably ordered) source starting at `offset`. -/
theorem pagedExportGo_flatten_aux {α : Type} (w : List α → List α → List α)
    (bs : Nat) (hbs : 1 ≤ bs) (src : List α) :
    ∀ (fuel offset : Nat), src.length - offset ≤ fuel →
      ∀ (table : List α) (e : Nat),
        (pagedExportGo w bs src.length src table offset e).pages.flatten
          = src.drop offset := by
  intro fuel
  induction fuel with
  | zero =>
    intro offset hle table e
    rw [pagedExportGo, dif_neg (by omega)]
    simp [List.drop_eq_nil_of_le (by omega : src.length ≤ offset)]
  | succ n ih =>
    intro offset hle table e
    by_cases h : offset < src.length
    · have hne : ¬((src.drop offset).take bs).isEmpty = true := by
        rw [List.isEmpty_iff]
        intro hc
        have hlen := congrArg List.length hc
        simp only [List.length_take, List.length_drop, List.length_nil] at hlen
        omega
      rw [pagedExportGo, dif_pos h, dif_neg hne]
      dsimp only
      rw [List.flatten_cons, ih (offset + bs) (by omega) _ _, ← List.drop_drop]
      exact List.take_append_drop bs (src.drop offset)
    · rw [pagedExportGo, dif_neg h]
      simp [List.drop_eq_nil_of_le (by omega : src.length ≤ offset)]

/-- Pagination coverage for a whole run: with `total` equal to the source
row count (the initial `SELECT COUNT(*)`), the pages fetched by the loop
concatenate to exactly the source. -/
theorem pagedExportGo_flatten {α : Type} (w : List α → List α → List α)
    (bs : Nat) (hbs : 1 ≤ bs) (src table : List α) :
    (pagedExportGo w bs src.length src table 0 0).pages.flatten = src := by
  have := pagedExportGo_flatten_aux w bs hbs src (src.length - 0) 0 le_rfl table 0
  simpa using this

/-- The write events of a paginated export are exactly the fetched page
sizes, in order. -/
theorem pagedExportGo_writes_eq_pages {α : Type} (w : List α → List α → List α)
    (bs total : Nat) (src : List α) :
    ∀ (fuel offset : Nat), total - offset ≤ fuel → ∀ (table : List α) (e : Nat),
      writesOf (pagedExportGo w bs total src table offset e).trace
        = (pagedExportGo w bs total src table offset e).pages.map List.length := by
  intro fuel
  induction fuel with
  | zero =>
    intro offset hle table e
    rw [pagedExportGo, dif_neg (by omega)]
    simp
  | succ n ih =>
    intro offset hle table e
    by_cases h : offset < total
    · rw [pagedExportGo, dif_pos h]
      by_cases he : ((src.drop offset).take bs).isEmpty = true
      · rw [dif_pos he]
        simp
      · rw [dif_neg he]
        have hbs1 : 1 ≤ bs := by
          rcases Nat.eq_zero_or_pos bs with h0 | h0
          · subst h0
            simp at he
          · exact h0
        have hstep : total - (offset + bs) ≤ n := by omega
        dsimp only
        rw [writesOf_read, writesOf_write, writesOf_commit, List.map_cons,
          ih (offset + bs) hstep _ _]
    · rw [pagedExportGo, dif_neg h]
      simp

/-- Fuel-indexed page-size computation: when the source snapshot has
`total = src.length` rows, the fetched page sizes from offset `offset` are
`pageSizes bs (total - offset)`. -/
theorem pagedExportGo_pageSizes_aux {α : Type} (w : List α → List α → List α)
    (bs : Nat) (hbs : 1 ≤ bs) (src : List α) :
    ∀ (fuel offset : Nat), src.length - offset ≤ fuel →
      ∀ (table : List α) (e : Nat),
        (pagedExportGo w bs src.length src table offset e).pages.map List.length
          = pageSizes bs (src.length - offset) := by
  intro fuel
  induction fuel with
  | zero =>
    intro offset hle table e
    rw [pagedExportGo, dif_neg (by omega)]
    rw [pageSizes, dif_neg (by omega)]
    simp
  | succ n ih =>
    intro offset hle table e
    by_cases h : offset < src.length
    · have hne : ¬((src.drop offset).take bs).isEmpty = true := by
        rw [List.isEmpty_iff]
        intro hc
        have hlen := congrArg List.length hc
        simp only [List.length_take, List.length_drop, List.length_nil] at hlen
        omega
      have hstep : src.length - (offset + bs) ≤ n := by omega
      rw [pagedExportGo, dif_pos h, dif_neg hne]
      dsimp only
      rw [List.map_cons, ih (offset + bs) hstep _ _]
      conv_rhs => rw [pageSizes]
      rw [dif_pos (by constructor <;> omega)]
      have hl : ((src.drop offset).take bs).length = min bs (src.length - offset) := by
        simp [List.length_take, List.length_drop]
      rw [hl]
      have hsub : src.length - (offset + bs) = src.length - offset - bs := by omega
      rw [hsub]
    · rw [pagedExportGo, dif_neg h]
      rw [pageSizes, dif_neg (by omega)]
      simp

/-- In a paginated export, every written batch is committed before the
next page is fetched: the trace never reads while a write is pending. -/
theorem pagedExportGo_commits_before_read {α : Type}
    (w : List α → List α → List α) (bs total : Nat) (src : List α) :
    ∀ (fuel offset : Nat), total - offset ≤ fuel → ∀ (table : List α) (e : Nat),
      readsPending false (pagedExportGo w bs total src table offset e).trace
        = false := by
  intro fuel
  induction fuel with
  | zero =>
    intro offset hle table e
    rw [pagedExportGo, dif_neg (by omega)]
    simp
  | succ n ih =>
    intro offset hle table e
    by_cases h : offset < total
    · rw [pagedExportGo, dif_pos h]
      by_cases he : ((src.drop offset).take bs).isEmpty = true
      · rw [dif_pos he]
        simp
      · rw [dif_neg he]
        have hbs1 : 1 ≤ bs := by
          rcases Nat.eq_zero_or_pos bs with h0 | h0
          · subst h0
            simp at he
          · exact h0
        have hstep : total - (offset + bs) ≤ n := by omega
        dsimp only
        rw [readsPending_read, readsPending_write, readsPending_commit,
          ih (offset + bs) hstep _ _]
        simp
    · rw [pagedExportGo, dif_neg h]
      simp

/-- Any invariant of the destination table that is preserved by the batch
write is preserved by the whole paginated export. -/
theorem pagedExportGo_table_inv {α : Type} (w : List α → List α → List α)
    (P : List α → Prop) (hw : ∀ t rows, P t → P (w t rows)) (bs total : Nat)
    (src : List α) :
    ∀ (fuel offset : Nat), total - offset ≤ fuel → ∀ (table : List α) (e : Nat),
      P table → P (pagedExportGo w bs total src table offset e).table := by
  intro fuel
  induction fuel with
  | zero =>
    intro offset hle table e hP
    rw [pagedExportGo, dif_neg (by omega)]
    exact hP
  | succ n ih =>
    intro offset hle table e hP
    by_cases h : offset < total
    · rw [pagedExportGo, dif_pos h]
      by_cases he : ((src.drop offset).take bs).isEmpty = true
      · rw [dif_pos he]
        exact hP
      · rw [dif_neg he]
        have hbs1 : 1 ≤ bs := by
          rcases Nat.eq_zero_or_pos bs with h0 | h0
          · subst h0
            simp at he
          · exact h0
        have hstep : total - (offset + bs) ≤ n := by omega
        dsimp only
        exact ih (offset + bs) hstep _ _ (hw _ _ hP)
    · rw [pagedExportGo, dif_neg h]
      exact hP

/-- `pageSizes` on a source of `3 * b + 7` records with `7 < b`: three
full pages and one final partial page of 7. -/
theorem pageSizes_three_and_seven (b : Nat) (hb : 7 < b) :
    pageSizes b (3 * b + 7) = [b, b, b, 7] := by
  rw [pageSizes, dif_pos (by constructor <;> omega)]
  have h1 : min b (3 * b + 7) = b := by omega
  have h2 : 3 * b + 7 - b = 2 * b + 7 := by omega
  rw [h1, h2]
  rw [pageSizes, dif_pos (by constructor <;> omega)]
  have h3 : min b (2 * b + 7) = b := by omega
  have h4 : 2 * b + 7 - b = b + 7 := by omega
  rw [h3, h4]
  rw [pageSizes, dif_pos (by constructor <;> omega)]
  have h5 : min b (b + 7) = b := by omega
  have h6 : b + 7 - b = 7 := by omega
  rw [h5, h6]
  rw [pageSizes, dif_pos (by constructor <;> omega)]
  have h7 : min b 7 = 7 := by omega
  have h8 : 7 - b = 0 := by omega
  rw [h7, h8]
  rw [pageSizes, dif_neg (by omega)]

/-- Inserting a row with `INSERT OR REPLACE` keyed on `ean13` preserves
uniqueness of the `ean13` values of the table. -/
theorem productInsertOrReplace_nodup (t : List Product) (r : Product)
    (h : (t.map Product.ean13).Nodup) :
    ((productInsertOrReplace t r).map Product.ean13).Nodup := by
  unfold productInsertOrReplace
  rw [List.map_append, List.nodup_append]
  refine ⟨?_, by simp, ?_⟩
  · exact List.Nodup.sublist
      (List.Sublist.map Product.ean13 (List.filter_sublist t)) h
  · intro a ha hb
    simp only [List.map_cons, List.map_nil, List.mem_singleton] at hb
    rcases List.mem_map.mp ha with ⟨x, hx, rfl⟩
    have hf := (List.mem_filter.mp hx).2
    rw [bne_iff_ne] at hf
    exact hf hb

/-- A whole batch written with `executemany` and `INSERT OR REPLACE`
preserves uniqueness of the `ean13` values of the table. -/
theorem foldl_productInsertOrReplace_nodup (rows : List Product) :
    ∀ t : List Product, (t.map Product.ean13).Nodup →
      ((List.foldl productInsertOrReplace t rows).map Product.ean13).Nodup := by
  induction rows with
  | nil =>
    intro t h
    simpa using h
  | cons r rest ih =>
    intro t h
    exact ih _ (productInsertOrReplace_nodup t r h)

/-- C1: every record written by the text-import pipeline is the
normalization of the raw record to the schema arity: a record with fewer
fields is extended on the right with empty strings, a record with more
fields is truncated to the first `n` fields, every written record has
exactly `n` fields, and with arity 4 the inputs `("A","B")` and
`("A","B","C","D","E")` are written as `("A","B","","")` and
`("A","B","C","D")`. -/
theorem C1_records_written_normalized (cols : List String) (bs : Nat)
    (rows : List (List String)) :
    (csv_import_data cols bs rows).table = rows.map (normalizeRow cols.length)
    ∧ (∀ row : List String, row.length < cols.length →
        normalizeRow cols.length row
          = row ++ List.replicate (cols.length - row.length) "")
    ∧ (∀ row : List String, cols.length < row.length →
        normalizeRow cols.length row = row.take cols.length)
    ∧ (∀ rec ∈ (csv_import_data cols bs rows).table, rec.length = cols.length)
    ∧ normalizeRow 4 ["A", "B"] = ["A", "B", "", ""]
    ∧ normalizeRow 4 ["A", "B", "C", "D", "E"] = ["A", "B", "C", "D"] := by
  have hspec := csv_import_go_spec cols bs rows [] [] 0
  have htab : (csv_import_data cols bs rows).table
      = rows.map (normalizeRow cols.length) := by
    have h1 := hspec.1
    simpa [csv_import_data] using h1
  refine ⟨htab, ?_, ?_, ?_, by decide, by decide⟩
  · intro row h
    simp [normalizeRow, h]
  · intro row h
    rw [normalizeRow, if_neg (by omega), if_pos h]
  · intro rec hrec
    rw [htab] at hrec
    rcases List.mem_map.mp hrec with ⟨r, _, rfl⟩
    exact normalizeRow_length _ _

/-- Witness for C1: the spec's literal examples, through the pipeline with
schema arity 4. -/
theorem C1_records_written_normalized_witness :
    (csv_import_data ["code", "product_name", "brands", "categories"] 10000
        [["A", "B"], ["A", "B", "C", "D", "E"]]).table
      = [["A", "B", "", ""], ["A", "B", "C", "D"]] := by
  have h := (C1_records_written_normalized
      ["code", "product_name", "brands", "categories"] 10000
      [["A", "B"], ["A", "B", "C", "D", "E"]]).1
  rw [h]
  decide

/-- C2 is false as stated: in the text-import pipeline with batch size 2,
a third record is read from the source while the first written batch of
two records is still uncommitted - the CSV loop commits only at the
1,000,000-record progress checkpoints and once after the loop, not after
every written batch. -/
theorem C2_commit_before_read_counterexample :
    readsWhileUncommitted
        (csv_import_data ["code"] 2 [["1"], ["2"], ["3"]]).trace = true := by
  decide

/-- C2 (amended): in the remote-copy pipeline every written batch is
committed before the next page is read; in the text-import pipeline the
loop may read further records while earlier written batches are still
uncommitted, but every written batch has been committed by the end of the
run (the final commit after the loop). -/
theorem C2_commit_discipline_amended :
    (∀ (bs : Nat) (src table : List Product),
      readsWhileUncommitted (export_products bs src table).trace = false)
    ∧ (∀ (bs : Nat) (src table : List Ingredient),
      readsWhileUncommitted (export_ingredients bs src table).trace = false)
    ∧ (∀ (cols : List String) (bs : Nat) (rows : List (List String)),
      pendingAtEnd false (csv_import_data cols bs rows).trace = false) := by
  refine ⟨?_, ?_, ?_⟩
  · intro bs src table
    exact pagedExportGo_commits_before_read _ bs src.length src
      (src.length - 0) 0 le_rfl table 0
  · intro bs src table
    exact pagedExportGo_commits_before_read _ bs src.length src
      (src.length - 0) 0 le_rfl table 0
  · intro cols bs rows
    exact csv_import_go_ends_committed cols bs rows [] [] 0 false

/-- C3 is false as stated: on a missing input file the text-import
pipeline prints an error and returns from `main`, so the process exits
with code 0, not a non-zero code. -/
theorem C3_nonzero_exit_counterexample :
    (off_main false true none ["code"] [["1"]] 10000).1 = 0 := rfl

/-- C3 (amended): only the remote-copy pipeline exits non-zero (code 1) on
an unrecoverable failure such as a failed remote connection; the
text-import pipeline reports a missing CSV file or a missing database file
and returns from `main`, exiting with code 0. -/
theorem C3_exit_codes_amended :
    (∀ (prev : OffDatabase) (bs1 bs2 : Nat) (ps : List Product)
        (ig : List Ingredient), (supabase_main false prev bs1 bs2 ps ig).1 = 1)
    ∧ (∀ (de : Bool) (prev : Option (List (List String))) (cols : List String)
        (rows : List (List String)) (bs : Nat),
        (off_main false de prev cols rows bs).1 = 0)
    ∧ (∀ (prev : Option (List (List String))) (cols : List String)
        (rows : List (List String)) (bs : Nat),
        (off_main true false prev cols rows bs).1 = 0) :=
  ⟨fun _ _ _ _ _ => rfl, fun _ _ _ _ _ => rfl, fun _ _ _ _ => rfl⟩

/-- C4: running either pipeline twice against the same unchanged inputs
leaves the destination identical to the state after the first run, because
each run first drops and recreates the destination table(s) and therefore
starts from an empty destination. -/
theorem C4_rerun_identical (prev1 : Option (List (List String)))
    (prev2 : OffDatabase) (cols : List String) (rows : List (List String))
    (bs bs1 bs2 : Nat) (prodSrc : List Product) (ingSrc : List Ingredient) :
    run_off_import (some (run_off_import prev1 cols rows bs)) cols rows bs
        = run_off_import prev1 cols rows bs
    ∧ run_supabase_export (run_supabase_export prev2 bs1 bs2 prodSrc ingSrc)
          bs1 bs2 prodSrc ingSrc
        = run_supabase_export prev2 bs1 bs2 prodSrc ingSrc :=
  ⟨rfl, rfl⟩

/-- C5: for every input and every batch size at least 1, the sum of the
per-batch written counts (the write events of the loop, which is also the
`total_imported` counter) equals the final row count of the destination
table reported at run end. -/
theorem C5_sum_of_batches_eq_final_count (cols : List String) (bs : Nat)
    (rows : List (List String)) (hbs : 1 ≤ bs) :
    sumWrites (csv_import_data cols bs rows).trace
        = (csv_import_data cols bs rows).table.length
    ∧ (csv_import_data cols bs rows).total
        = (csv_import_data cols bs rows).table.length := by
  have h := csv_import_go_spec cols bs rows [] [] 0
  constructor
  · show sumWrites (csv_import_go cols bs rows [] [] 0).trace
        = (csv_import_go cols bs rows [] [] 0).table.length
    rw [h.2.2, h.1]
    simp
  · show (csv_import_go cols bs rows [] [] 0).total
        = (csv_import_go cols bs rows [] [] 0).table.length
    rw [h.2.1, h.1]
    simp

/-- Witness for C5 at batch size 1 and a two-record source. -/
theorem C5_sum_of_batches_eq_final_count_witness :
    sumWrites (csv_import_data ["code"] 1 [["1"], ["2"]]).trace
      = (csv_import_data ["code"] 1 [["1"], ["2"]]).table.length :=
  (C5_sum_of_batches_eq_final_count ["code"] 1 [["1"], ["2"]] (by decide)).1

/-- C6: for both remote exports, the concatenation of all fetched pages
(fixed-size pages of the stably ordered source snapshot, offset advanced
by the batch size) is exactly the source table - every record appears
exactly once, none skipped, none duplicated. -/
theorem C6_pagination_covers_source_exactly (bs : Nat) (hbs : 1 ≤ bs)
    (prodSrc : List Product) (ingSrc : List Ingredient)
    (ptable : List Product) (itable : List Ingredient) :
    (export_products bs prodSrc ptable).pages.flatten = prodSrc
    ∧ (export_ingredients bs ingSrc itable).pages.flatten = ingSrc :=
  ⟨pagedExportGo_flatten _ bs hbs prodSrc ptable,
   pagedExportGo_flatten _ bs hbs ingSrc itable⟩

/-- Witness for C6 with page size 2 over a three-row products source. -/
theorem C6_pagination_covers_source_exactly_witness :
    (export_products 2 [sampleProduct, sampleProduct, sampleProduct]
        []).pages.flatten
      = [sampleProduct, sampleProduct, sampleProduct] :=
  (C6_pagination_covers_source_exactly 2 (by decide)
    [sampleProduct, sampleProduct, sampleProduct] [sampleIngredient] [] []).1

/-- C7: if the remote connection cannot be established, the remote-copy
run exits with code 1 before any destination table is created, dropped or
altered: the destination store is returned exactly as it was. -/
theorem C7_connection_failure_leaves_store_untouched (prev : OffDatabase)
    (bs1 bs2 : Nat) (prodSrc : List Product) (ingSrc : List Ingredient) :
    supabase_main false prev bs1 bs2 prodSrc ingSrc = (1, prev) :=
  rfl

/-- C8: for every batch size `b` with `7 < b` and a source of exactly
`3 * b + 7` records, both batch-transfer loops perform exactly four batch
writes - three of size `b` and one final partial write of size 7 - and
then terminate. -/
theorem C8_three_full_batches_then_seven (b : Nat) (cols : List String)
    (rows : List (List String)) (src : List Product) (table : List Product)
    (hb : 7 < b) (hrows : rows.length = 3 * b + 7)
    (hsrc : src.length = 3 * b + 7) :
    writesOf (csv_import_data cols b rows).trace = [b, b, b, 7]
    ∧ writesOf (export_products b src table).trace = [b, b, b, 7] := by
  constructor
  · have h := csv_import_go_writes cols b rows [] [] 0
      (by simp only [List.length_nil]; omega)
    show writesOf (csv_import_go cols b rows [] [] 0).trace = [b, b, b, 7]
    rw [h]
    simp only [List.length_nil]
    rw [hrows]
    exact chunkSizes_three_and_seven b hb
  · have h1 := pagedExportGo_writes_eq_pages
      (fun t rows => List.foldl productInsertOrReplace t rows) b src.length src
      (src.length - 0) 0 le_rfl table 0
    have h2 := pagedExportGo_pageSizes_aux
      (fun t rows => List.foldl productInsertOrReplace t rows) b (by omega) src
      (src.length - 0) 0 le_rfl table 0
    show writesOf (pagedExportGo
        (fun t rows => List.foldl productInsertOrReplace t rows) b src.length
        src table 0 0).trace = [b, b, b, 7]
    rw [h1, h2]
    simp only [Nat.sub_zero]
    rw [hsrc]
    exact pageSizes_three_and_seven b hb

/-- Witness for C8 at `b = 8` over 31-record sources. -/
theorem C8_three_full_batches_then_seven_witness :
    writesOf (csv_import_data ["code"] 8 (List.replicate 31 ["x"])).trace
      = [8, 8, 8, 7] :=
  (C8_three_full_batches_then_seven 8 ["code"] (List.replicate 31 ["x"])
    (List.replicate 31 sampleProduct) [] (by decide) (by decide) (by decide)).1

/-- C9: the destination `products` table keeps at most one row per
`ean13` value: one insert-or-replace preserves key uniqueness, a whole
export run from a key-unique table state (in particular the freshly
created empty one) yields a key-unique table, the newly inserted row is
present afterwards, and it is the only row carrying its key - a later row
with the same `ean13` replaces the earlier one. -/
theorem C9_ean13_unique (t : List Product) (r : Product) (bs : Nat)
    (src : List Product) (table : List Product) :
    ((t.map Product.ean13).Nodup →
        ((productInsertOrReplace t r).map Product.ean13).Nodup)
    ∧ ((table.map Product.ean13).Nodup →
        ((export_products bs src table).table.map Product.ean13).Nodup)
    ∧ r ∈ productInsertOrReplace t r
    ∧ (∀ x ∈ productInsertOrReplace t r, x.ean13 = r.ean13 → x = r) := by
  refine ⟨productInsertOrReplace_nodup t r, ?_, ?_, ?_⟩
  · intro htable
    exact pagedExportGo_table_inv
      (fun t rows => List.foldl productInsertOrReplace t rows)
      (fun t => (t.map Product.ean13).Nodup)
      (fun t rows h => foldl_productInsertOrReplace_nodup rows t h)
      bs src.length src (src.length - 0) 0 le_rfl table 0 htable
  · unfold productInsertOrReplace
    simp
  · intro x hx hkey
    unfold productInsertOrReplace at hx
    rcases List.mem_append.mp hx with hx1 | hx1
    · have hf := (List.mem_filter.mp hx1).2
      rw [bne_iff_ne] at hf
      exact absurd hkey hf
    · simpa using hx1

/-- Witness for C9: inserting a row into the freshly created empty table
leaves the `ean13` values unique. -/
theorem C9_ean13_unique_witness :
    ((productInsertOrReplace [] sampleProduct).map Product.ean13).Nodup :=
  (C9_ean13_unique [] sampleProduct 1 [] []).1 (by simp)

/-- C10: normalization is the identity on well-formed records - a raw
record whose field count already equals the schema arity is written
unchanged, and a source consisting only of well-formed records is written
field-for-field identical. -/
theorem C10_normalization_identity_on_wellformed (cols : List String)
    (bs : Nat) (rows : List (List String)) (row : List String)
    (hrow : row.length = cols.length)
    (hrows : ∀ r ∈ rows, r.length = cols.length) :
    normalizeRow cols.length row = row
    ∧ (csv_import_data cols bs rows).table = rows := by
  constructor
  · simp [normalizeRow, hrow]
  · have h := (csv_import_go_spec cols bs rows [] [] 0).1
    show (csv_import_go cols bs rows [] [] 0).table = rows
    rw [h]
    simp only [List.nil_append]
    calc rows.map (normalizeRow cols.length)
        = rows.map id :=
          List.map_congr_left (fun r hr => by simp [normalizeRow, hrows r hr])
      _ = rows := List.map_id rows

/-- Witness for C10 on a record of exactly the schema arity. -/
theorem C10_normalization_identity_on_wellformed_witness :
    normalizeRow 2 ["A", "B"] = ["A", "B"] :=
  (C10_normalization_identity_on_wellformed ["x", "y"] 1 [] ["A", "B"]
    (by decide) (by intro r hr; simp at hr)).1
